import Mathlib

/-!
Verification of the RAG core of the ragchat repository against its
natural-language specification.

The JavaScript sources are shallowly embedded: JS numbers are idealised as
rationals (`ℚ`), JS strings as Lean `String`, fallible code returns
`Except String`, and `undefined`/absent values are `Option`.  JS
`Array.prototype.sort` with the comparator `(a, b) => b.score - a.score` is
stable (ES2019); since the candidate list carries strictly increasing store
indices, that stable sort coincides with sorting by the total lexicographic
order `candR` (score descending, store index ascending), which we compute
with `List.insertionSort`.
-/

deriving instance DecidableEq for Except

set_option allowUnsafeReducibility true

attribute [local semireducible] Rat.mul Rat.add Rat.sub Rat.div Rat.inv Rat.neg

/-- JS `String.prototype.trim` (both-ends whitespace strip) on the
character list; Lean `String.trim` agrees but does not evaluate inside the
kernel. -/
def jsTrim (l : List Char) : List Char :=
  ((l.dropWhile Char.isWhitespace).reverse.dropWhile Char.isWhitespace).reverse

/-- JS `String.prototype.trim`. -/
def jsTrimS (s : String) : String := String.mk (jsTrim s.data)

/-- Whether the first list is a leading segment of the second. -/
def isPrefixChars : List Char → List Char → Bool
  | [], _ => true
  | _ :: _, [] => false
  | p :: ps, c :: cs => p == c && isPrefixChars ps cs

/-- The characters strictly before the first occurrence of `pat`, or
`none` when `pat` does not occur (JS `indexOf` search). -/
def beforeFirst (pat : List Char) : List Char → Option (List Char)
  | [] => if isPrefixChars pat [] then some [] else none
  | c :: cs =>
    if isPrefixChars pat (c :: cs) then some []
    else (beforeFirst pat cs).map (fun l => c :: l)

/-- Whether `pat` occurs in `s` (JS `String.prototype.includes`). -/
def hasSub (s pat : String) : Bool := (beforeFirst pat.data s.data).isSome

/-- JS `s.split(pat)[0]`: the part of `s` before the first occurrence of
`pat` (all of `s` when `pat` is absent). -/
def cutAt (s pat : String) : String :=
  match beforeFirst pat.data s.data with
  | some l => String.mk l
  | none => s

/-- Embedding vectors (JS `Float32Array`), idealised as rational lists. -/
abbrev Vec := List ℚ

/-- Source: `VectorStore.dotProduct`.  Throws when the lengths differ. -/
def dotProduct (v1 v2 : Vec) : Except String ℚ :=
  if v1.length ≠ v2.length then .error "Vectors must have same length"
  else .ok ((List.zipWith (· * ·) v1 v2).sum)

/-- A chunk record as stored in the embeddings JSON.  `category`, `language`
and `embedding` may be absent (`none`); `embedding = some v` models the JS
value being an array.  Fields the verified code never reads (`tokens`,
`chunk_index`, `metadata`) are omitted. -/
structure StoredChunk where
  chunk_id : String
  document_id : String
  text : String
  category : Option String := none
  language : Option String := none
  embedding : Option Vec := none
deriving DecidableEq, Repr

/-- Placeholder for out-of-range list indexing (never reached: search
results index into the chunk list they were built from). -/
def defaultChunk : StoredChunk :=
  { chunk_id := "", document_id := "", text := "" }

/-- Search filters; a `none` field models an absent (or falsy) filter. -/
structure Filters where
  category : Option String := none
  language : Option String := none
  document_id : Option String := none
deriving DecidableEq, Repr

/-- The empty filter object `{}`. -/
def noFilters : Filters := {}

/-- The parsed embeddings artifact passed to `loadEmbeddings`.  A `none`
`chunks` models a missing/falsy `chunks` field. -/
structure EmbeddingsData where
  chunks : Option (List StoredChunk) := none
  embedding_dim : Option ℕ := none
deriving DecidableEq, Repr

/-- Source: `VectorStore` state. -/
structure VectorStore where
  chunks : List StoredChunk := []
  embeddings : List Vec := []
  isLoaded : Bool := false
  embeddingDim : ℕ := 768
deriving DecidableEq, Repr

/-- A fresh `new VectorStore()`. -/
def initialVectorStore : VectorStore := {}

/-- Source: the `chunks.map` body inside `VectorStore.loadEmbeddings`: each
chunk must carry an array-valued `embedding`, which is collected; the first
offender throws. -/
def extractEmbeddings : List StoredChunk → Except String (List Vec)
  | [] => .ok []
  | c :: cs =>
    match c.embedding with
    | some v => do
      let rest ← extractEmbeddings cs
      .ok (v :: rest)
    | none => .error ("Invalid embedding format for chunk " ++ c.chunk_id)

/-- Source: `VectorStore.loadEmbeddings`.  `data = none` models a falsy
`embeddingsData` argument.  The JS `embeddingsData.embedding_dim || 768`
default is modelled on the `Option`/zero value. -/
def loadEmbeddings (_store : VectorStore) (data : Option EmbeddingsData) :
    Except String VectorStore :=
  match data with
  | none => .error "Invalid embeddings data format"
  | some d =>
    match d.chunks with
    | none => .error "Invalid embeddings data format"
    | some cs => do
      let dim := match d.embedding_dim with
        | some n => if n = 0 then 768 else n
        | none => 768
      let embs ← extractEmbeddings cs
      .ok { chunks := cs, embeddings := embs, isLoaded := true, embeddingDim := dim }

/-- Source: the filter guards at the top of the search loop.  A supplied
filter field must equal the chunk field. -/
def matchesFilters (f : Filters) (c : StoredChunk) : Bool :=
  (match f.category with | none => true | some v => c.category == some v) &&
  (match f.language with | none => true | some v => c.language == some v) &&
  (match f.document_id with | none => true | some v => c.document_id == v)

/-- A scored candidate `{index, score}` from the search scan. -/
structure Cand where
  index : ℕ
  score : ℚ
deriving DecidableEq, Repr

/-- The total order realised by the stable JS sort on the candidate list:
score strictly descending, ties by ascending store index. -/
def candR (a b : Cand) : Prop :=
  b.score < a.score ∨ (a.score = b.score ∧ a.index ≤ b.index)

instance : DecidableRel candR := fun a b => by
  unfold candR; infer_instance

instance : IsTotal Cand candR := by
  constructor
  intro a b
  unfold candR
  rcases lt_trichotomy a.score b.score with h | h | h
  · exact Or.inr (Or.inl h)
  · rcases Nat.le_total a.index b.index with hi | hi
    · exact Or.inl (Or.inr ⟨h, hi⟩)
    · exact Or.inr (Or.inr ⟨h.symm, hi⟩)
  · exact Or.inl (Or.inl h)

instance : IsTrans Cand candR := by
  constructor
  intro a b c hab hbc
  unfold candR at *
  rcases hab with h1 | ⟨h1, i1⟩
  · rcases hbc with h2 | ⟨h2, i2⟩
    · exact Or.inl (h2.trans h1)
    · exact Or.inl (h2 ▸ h1)
  · rcases hbc with h2 | ⟨h2, i2⟩
    · exact Or.inl (by rw [h1]; exact h2)
    · exact Or.inr ⟨h1.trans h2, i1.trans i2⟩

instance : IsAntisymm Cand candR := by
  constructor
  intro a b hab hba
  unfold candR at *
  rcases hab with h1 | ⟨h1, i1⟩
  · rcases hba with h2 | ⟨h2, i2⟩
    · exact absurd (h1.trans h2) (lt_irrefl _)
    · exact absurd h1 (by rw [h2]; exact lt_irrefl _)
  · rcases hba with h2 | ⟨h2, i2⟩
    · exact absurd h2 (by rw [h1]; exact lt_irrefl _)
    · cases a; cases b; simp_all; omega

/-- Source: the scan loop of `VectorStore.search`: walk the chunk/embedding
rows in storage order, skip rows rejected by the filters, score the rest
with the dot product (whose length check can throw). -/
def scanCandidates (q : Vec) (f : Filters) :
    ℕ → List (StoredChunk × Vec) → Except String (List Cand)
  | _, [] => .ok []
  | i, (c, e) :: rest =>
    if matchesFilters f c then do
      let s ← dotProduct q e
      let others ← scanCandidates q f (i + 1) rest
      .ok (⟨i, s⟩ :: others)
    else scanCandidates q f (i + 1) rest

/-- JS `array.slice(0, k)` for an `Int` bound `k`: a negative `k` counts
from the end of the array. -/
def jsSlice (l : List α) (k : Int) : List α :=
  if 0 ≤ k then l.take k.toNat else l.take (l.length - (-k).toNat)

/-- A search hit: the stored chunk spread together with its score. -/
structure SearchResult where
  chunk : StoredChunk
  similarity_score : ℚ
deriving DecidableEq, Repr

/-- Map a ranked candidate back to its chunk (`this.chunks[result.index]`). -/
def renderResult (chunks : List StoredChunk) (cand : Cand) : SearchResult :=
  { chunk := chunks.getD cand.index defaultChunk, similarity_score := cand.score }

/-- Source: `VectorStore.search` (default dot-product scoring; the unused
non-default cosine flag is outside the embedding — no caller in the
repository supplies it). -/
def search (store : VectorStore) (q : Vec) (topK : Int) (f : Filters) :
    Except String (List SearchResult) :=
  if store.isLoaded = false then
    .error "Vector store not loaded. Call loadEmbeddings() first."
  else if q.length ≠ store.embeddingDim then
    .error ("Query embedding dimension mismatch. Expected " ++
      toString store.embeddingDim ++ ", got " ++ toString q.length)
  else do
    let cands ← scanCandidates q f 0 (store.chunks.zip store.embeddings)
    let sorted := List.insertionSort candR cands
    .ok ((jsSlice sorted topK).map (renderResult store.chunks))

/-- Tunable router thresholds set in the `QueryRouter` constructor
(source literals 0.6 and 0.4, written as rationals). -/
structure RouterConfig where
  thresholdSimilarity : ℚ := 3/5
  minimumConfidence : ℚ := 2/5
deriving DecidableEq, Repr

/-- A `new QueryRouter(...)` with its default thresholds. -/
def defaultRouter : RouterConfig := {}

/-- Which branch produced the routing decision.  The JS `reason` strings
embed percentages formatted with `toFixed`; they are modelled as tags since
no verified behaviour depends on the text. -/
inductive ReasonKind where
  | forcedRag
  | forcedGeneral
  | noDocs
  | highSim
  | lowSim
  | notRelated
  | routingError
deriving DecidableEq, Repr

/-- The object resolved by `QueryRouter.routeQuery`. -/
structure RoutingDecision where
  mode : String
  confidence : ℚ
  reason : ReasonKind
  relevantChunks : List SearchResult
  error : Option String := none
deriving DecidableEq, Repr

/-- Source: `QueryRouter.routeQuery`.  `userQuery = none` models a
non-string argument.  `embedText` is the Embedder collaborator.  A
`.error` result models a rejected promise; the embed/search try-catch
downgrades those two steps (only) to `general` with confidence 0.5. -/
def routeQuery (embedText : String → Except String Vec) (store : VectorStore)
    (router : RouterConfig) (userQuery : Option String)
    (forceMode : Option String) (topK : Int) : Except String RoutingDecision :=
  match userQuery with
  | none => .error "User query must be a non-empty string"
  | some q =>
    if q = "" then .error "User query must be a non-empty string"
    else if forceMode = some "rag" then
      .ok { mode := "rag", confidence := 1, reason := .forcedRag, relevantChunks := [] }
    else if forceMode = some "general" then
      .ok { mode := "general", confidence := 1, reason := .forcedGeneral, relevantChunks := [] }
    else
      match (do
        let emb ← embedText q
        search store emb topK noFilters : Except String (List SearchResult)) with
      | .error e =>
        .ok { mode := "general", confidence := 1/2, reason := .routingError,
              relevantChunks := [], error := some e }
      | .ok results =>
        match results with
        | [] =>
          .ok { mode := "general", confidence := 1, reason := .noDocs, relevantChunks := [] }
        | top :: _ =>
          let topScore := top.similarity_score
          if router.thresholdSimilarity ≤ topScore then
            .ok { mode := "rag", confidence := topScore, reason := .highSim,
                  relevantChunks := results }
          else if router.minimumConfidence ≤ topScore then
            .ok { mode := "general", confidence := 1 - topScore, reason := .lowSim,
                  relevantChunks := results }
          else
            .ok { mode := "general", confidence := 1, reason := .notRelated,
                  relevantChunks := [] }

/-- A chat message `{role, content}`. -/
structure Msg where
  role : String
  content : String
deriving DecidableEq, Repr

/-- Source: the `formatted` mapping in
`PromptBuilder.formatConversationHistory`: any non-`user` role renders as
`Assistant`. -/
def fmtMsg (m : Msg) : String :=
  (if m.role = "user" then "User" else "Assistant") ++ ": " ++ m.content

/-- Source: the truncation `while` loop: drop leading messages while the
joined text exceeds the budget, but keep at least one message. -/
def histLoop (tc : String → ℕ) (maxTokens : ℕ) : List String → List String
  | [] => []
  | [m] => [m]
  | m :: m2 :: rest =>
    if maxTokens < tc (String.intercalate "\n" (m :: m2 :: rest)) then
      histLoop tc maxTokens (m2 :: rest)
    else m :: m2 :: rest

/-- Source: `PromptBuilder.formatConversationHistory`. -/
def formatConversationHistory (tc : String → ℕ) (maxTokens : ℕ)
    (messages : List Msg) : String :=
  if messages = [] then ""
  else String.intercalate "\n" (histLoop tc maxTokens (messages.map fmtMsg))

/-- Source: `PromptBuilder.createPrompt`. -/
def createPrompt (conversationHistory newMessage : String) : String :=
  if conversationHistory ≠ "" then
    conversationHistory ++ "\nUser: " ++ newMessage ++ "\nAssistant:"
  else "User: " ++ newMessage ++ "\nAssistant:"

/-- Source: the role-marker loop at the end of
`PromptBuilder.extractResponse`. -/
def stripRoles : List String → String → String
  | [], s => s
  | p :: ps, s =>
    stripRoles ps (if isPrefixChars p.data s.data then jsTrimS (s.drop p.length) else s)

/-- Source: `PromptBuilder.extractResponse`: trim, cut at the first
next-turn marker, then strip a leading role marker. -/
def extractResponse (generatedText : String) : String :=
  let r0 := jsTrimS generatedText
  let r1 := if hasSub r0 "\nUser:" then jsTrimS (cutAt r0 "\nUser:") else r0
  let r2 := if hasSub r1 "\nAssistant:" then jsTrimS (cutAt r1 "\nAssistant:") else r1
  stripRoles ["Assistant:", "Bot:", "AI:", "GPT:"] r2

/-- Source: `PromptBuilder.buildPrompt` with `maxContextTokens` from the
constructor (default 512) and the fixed reserve of 100. -/
def buildPrompt (maxContextTokens : ℕ) (messages : List Msg)
    (newMessage : String) (tc : String → ℕ) : String :=
  createPrompt (formatConversationHistory tc (maxContextTokens - 100) messages) newMessage

/-- A category record from the categories artifact (only the fields the
verified code reads). -/
structure Category where
  id : String
  name_uk : String
  name_en : String
deriving DecidableEq, Repr

/-- A document record from the documents manifest (only the fields the
verified code reads). -/
structure Document where
  id : String
  title : String
  filename : String
  source_url : String
  category : String
  language : String
deriving DecidableEq, Repr

/-- Source: `DocumentManager` state after `loadMetadata`. -/
structure DocumentManager where
  documents : List Document := []
  categories : List Category := []
deriving DecidableEq, Repr

/-- Source: `DocumentManager.getDocumentById` (`Map.get(id) || null`; the
by-id map is keyed on the unique manifest ids, modelled as first-match
lookup). -/
def getDocumentById (dm : DocumentManager) (id : String) : Option Document :=
  dm.documents.find? (fun d => d.id = id)

/-- Source: `DocumentManager.getCategoryById`. -/
def getCategoryById (dm : DocumentManager) (categoryId : String) : Option Category :=
  dm.categories.find? (fun cat => cat.id = categoryId)

/-- Source: `DocumentManager.getCategoryName`; an unknown id falls back to
the id, and only an explicit language `en` selects the English name. -/
def getCategoryName (dm : DocumentManager) (categoryId : String)
    (language : Option String) : String :=
  match getCategoryById dm categoryId with
  | none => categoryId
  | some cat => if language = some "en" then cat.name_en else cat.name_uk

/-- The chunk projection placed in `retrievedChunks` of a RAG response. -/
structure RetrievedChunk where
  chunk_id : String
  text : String
  document_id : String
  similarity_score : ℚ
  category : Option String
  language : Option String
deriving DecidableEq, Repr

/-- Source: the mapping of retrieved chunks inside `RAGPipeline.query`. -/
def projectChunk (r : SearchResult) : RetrievedChunk :=
  { chunk_id := r.chunk.chunk_id, text := r.chunk.text,
    document_id := r.chunk.document_id, similarity_score := r.similarity_score,
    category := r.chunk.category, language := r.chunk.language }

/-- A source attribution entry built by `RAGPipeline.extractSources`. -/
structure Source where
  document_id : String
  title : String
  category : String
  categoryName : String
  source_url : String
  language : String
  filename : String
deriving DecidableEq, Repr

/-- The source entry pushed for a resolved document. -/
def mkSource (dm : DocumentManager) (doc : Document) (lang : Option String) : Source :=
  { document_id := doc.id, title := doc.title, category := doc.category,
    categoryName := getCategoryName dm doc.category lang,
    source_url := doc.source_url, language := doc.language,
    filename := doc.filename }

/-- Source: the loop of `RAGPipeline.extractSources`; `seen` models the
`uniqueDocs` set (the id is recorded even when the catalog lookup fails). -/
def extractSourcesAux (dm : DocumentManager) :
    List SearchResult → List String → List Source
  | [], _ => []
  | c :: cs, seen =>
    if c.chunk.document_id ∈ seen then extractSourcesAux dm cs seen
    else
      match getDocumentById dm c.chunk.document_id with
      | some doc =>
        mkSource dm doc c.chunk.language ::
          extractSourcesAux dm cs (c.chunk.document_id :: seen)
      | none => extractSourcesAux dm cs (c.chunk.document_id :: seen)

/-- Source: `RAGPipeline.extractSources`. -/
def extractSources (dm : DocumentManager) (chunks : List SearchResult) : List Source :=
  extractSourcesAux dm chunks []

/-- Specification-side description: keep each retrieved chunk whose
`document_id` has not occurred earlier in the list. -/
def dedupByDocId : List SearchResult → List String → List SearchResult
  | [], _ => []
  | c :: cs, seen =>
    if c.chunk.document_id ∈ seen then dedupByDocId cs seen
    else c :: dedupByDocId cs (c.chunk.document_id :: seen)

/-- The first chunk of each distinct `document_id`, in order of first
occurrence. -/
def firstOccurrences (chunks : List SearchResult) : List SearchResult :=
  dedupByDocId chunks []

/-- Source: `RAGPipeline.buildContext`: numbered bilingual source blocks
joined by blank lines. -/
def buildContext (chunks : List SearchResult) : String :=
  String.intercalate "\n\n"
    (chunks.enum.map (fun p =>
      "[Джерело " ++ toString (p.1 + 1) ++ " / Source " ++ toString (p.1 + 1) ++
        "]:\n" ++ p.2.chunk.text))

/-- Modelled from the spec: `PromptBuilder.buildRAGPrompt` is called by
`RAGPipeline.query` but its definition is not among the provided source
files.  Per spec §4.7, the grounded prompt is a header instructing the
model to answer using only the provided sources, the numbered source
blocks, the user question, and the `Assistant:` cue. -/
def buildRAGPrompt (userQuery context : String) : String :=
  "Answer the question using only the provided sources.\n\n" ++ context ++
    "\n\nUser: " ++ userQuery ++ "\nAssistant:"

/-- JS `x.toFixed(3)` re-parsed as a number, idealised over ℚ: round
`1000 x` to the nearest integer, ties toward the larger value. -/
def toFixed3 (x : ℚ) : ℚ := ((Rat.floor (1000 * x + 1/2) : ℤ) : ℚ) / 1000

/-- Source: `RAGPipeline.calculateAvgSimilarity`. -/
def calculateAvgSimilarity (chunks : List SearchResult) : ℚ :=
  if chunks = [] then 0
  else toFixed3 ((chunks.foldl (fun acc c => acc + c.similarity_score) 0) / chunks.length)

/-- Generation knobs passed through, untouched, to the Generator
collaborator. -/
structure GenConfig where
  temperature : Option ℚ := none
  max_length : Option ℕ := none
  top_k : Option ℕ := none
  top_p : Option ℚ := none
  repetition_penalty : Option ℚ := none
deriving DecidableEq, Repr

/-- The metadata block of a RAG response; the `no_results` branch fills
only `queryTime` and `retrievedCount`. -/
structure RAGMetadata where
  queryTime : ℚ
  embeddingTime : Option ℚ := none
  retrievalTime : Option ℚ := none
  generationTime : Option ℚ := none
  retrievedCount : ℕ
  sourceCount : Option ℕ := none
  avgSimilarity : Option ℚ := none
deriving DecidableEq, Repr

/-- The object returned by `RAGPipeline.query`. -/
structure RAGResponse where
  mode : String
  answer : String
  retrievedChunks : List RetrievedChunk
  sources : List Source
  metadata : Option RAGMetadata := none
  error : Option String := none
deriving DecidableEq, Repr

/-- The catch-all error response of `RAGPipeline.query` (never rethrows). -/
def ragErrorResponse (e : String) : RAGResponse :=
  { mode := "error",
    answer := "Виникла помилка при обробці запиту. / An error occurred while processing your request.",
    retrievedChunks := [], sources := [], error := some e }

/-- Source: `RAGPipeline.query`.  The Clock collaborator is a pure reading
per `performance.now()` call site (0/1 around embedding, 2/3 around
retrieval, 4/5 around generation).  Metadata is always attached, matching
the default `includeMetadata = true` (with `includeMetadata = false` the JS
success path dereferences the missing metadata in a diagnostic log and
falls into the error branch; no repository caller does that). -/
def ragQuery (embed : String → Except String Vec) (store : VectorStore)
    (dm : DocumentManager) (gen : String → GenConfig → Except String String)
    (clock : ℕ → ℚ) (userQuery : String) (topK : Int) (filters : Filters)
    (cfg : GenConfig) : RAGResponse :=
  match embed userQuery with
  | .error e => ragErrorResponse e
  | .ok qemb =>
    let embedTime := clock 1 - clock 0
    match search store qemb topK filters with
    | .error e => ragErrorResponse e
    | .ok retrieved =>
      let retrievalTime := clock 3 - clock 2
      if retrieved = [] then
        { mode := "no_results",
          answer := "Не знайдено релевантних документів. / No relevant documents found.",
          retrievedChunks := [], sources := [],
          metadata := some { queryTime := embedTime + retrievalTime, retrievedCount := 0 } }
      else
        match gen (buildRAGPrompt userQuery (buildContext retrieved)) cfg with
        | .error e => ragErrorResponse e
        | .ok generatedAnswer =>
          let generationTime := clock 5 - clock 4
          let sources := extractSources dm retrieved
          { mode := "rag",
            answer := extractResponse generatedAnswer,
            retrievedChunks := retrieved.map projectChunk,
            sources := sources,
            metadata := some
              { queryTime := embedTime + retrievalTime + generationTime,
                embeddingTime := some embedTime,
                retrievalTime := some retrievalTime,
                generationTime := some generationTime,
                retrievedCount := retrieved.length,
                sourceCount := some sources.length,
                avgSimilarity := some (calculateAvgSimilarity retrieved) } }

/-- JS `str.split(/\s+/)` on the character list: the segments between
maximal whitespace runs, with an empty leading (trailing) piece when the
string starts (ends) with whitespace.  (`Char.isWhitespace` stands for the
regex class `\s`; they agree on the ASCII whitespace the corpus uses.) -/
def wsSplit : List Char → List (List Char)
  | [] => [[]]
  | c :: cs =>
    if c.isWhitespace then
      match cs with
      | [] => [[], []]
      | d :: _ => if d.isWhitespace then wsSplit cs else [] :: wsSplit cs
    else
      match wsSplit cs with
      | [] => [[c]]
      | t :: ts => (c :: t) :: ts

/-- JS `array.join(' ')` on character-list words. -/
def joinSp : List (List Char) → List Char
  | [] => []
  | [w] => w
  | w :: ws => w ++ ' ' :: joinSp ws

/-- JS `text.replace(/\s+/g, ' ')`: every maximal whitespace run becomes a
single space. -/
def collapseWs (l : List Char) : List Char := joinSp (wsSplit l)

/-- What a newline run of length `run` becomes under
`replace(/\n{3,}/g, '\n\n')`. -/
def emitRun (run : ℕ) : List Char :=
  List.replicate (if 3 ≤ run then 2 else run) '\n'

/-- JS `text.replace(/\n{3,}/g, '\n\n')`, tracking the current newline
run length. -/
def collapseNlAux : List Char → ℕ → List Char
  | [], run => emitRun run
  | c :: cs, run =>
    if c = '\n' then collapseNlAux cs (run + 1)
    else emitRun run ++ c :: collapseNlAux cs 0

/-- Source: `TextExtractor.cleanText` in the preprocessing pipeline:
collapse all whitespace runs to single spaces, then collapse newline runs
of three or more, then trim. -/
def cleanText (s : String) : String :=
  String.mk (jsTrim (collapseNlAux (collapseWs s.data) 0))

/-- Chunker configuration constant `TARGET_TOKENS`. -/
def TARGET_TOKENS : ℕ := 250

/-- Chunker configuration constant `OVERLAP_TOKENS`. -/
def OVERLAP_TOKENS : ℕ := 50

/-- Chunker configuration constant `MIN_CHUNK_TOKENS`. -/
def MIN_CHUNK_TOKENS : ℕ := 100

/-- Source: `TextChunker.estimateTokens`: `Math.ceil(length / 3.5)`. -/
def estimateTokens (s : String) : ℕ := (2 * s.length + 6) / 7

/-- Source: `TextChunker.getOverlapText`: the last
`min(tokens, wordCount)` whitespace-separated tokens, joined by single
spaces (`slice(-overlapWords).join(' ')`). -/
def getOverlapText (text : String) (tokens : ℕ) : String :=
  let words := wsSplit text.data
  let overlapWords := min tokens words.length
  if overlapWords = 0 then ""
  else String.mk (joinSp (words.drop (words.length - overlapWords)))

/-- The document metadata fields `TextChunker.createChunkObject` copies. -/
structure DocMeta where
  id : String
  category : String
  language : String
  title : String
  filename : String
  source_url : String
deriving DecidableEq, Repr

/-- A chunk emitted by the offline chunker. -/
structure PipelineChunk where
  chunk_id : String
  document_id : String
  text : String
  tokens : ℕ
  chunk_index : ℕ
  category : String
  language : String
  document_title : String
  document_filename : String
  chunk_source_url : String
deriving DecidableEq, Repr

/-- Source: `TextChunker.createChunkObject`. -/
def mkChunk (doc : DocMeta) (text : String) (chunkIndex tokens : ℕ) : PipelineChunk :=
  { chunk_id := doc.id ++ "_chunk_" ++ toString chunkIndex,
    document_id := doc.id, text := text, tokens := tokens,
    chunk_index := chunkIndex, category := doc.category,
    language := doc.language, document_title := doc.title,
    document_filename := doc.filename, chunk_source_url := doc.source_url }

/-- Source: the sentence loop of `TextChunker.createChunks`, with the
current segment text, its running token count and the next chunk index as
state.  On overflow of a non-empty segment the segment is emitted and the
next one is seeded with the overlap tail; the tail is non-empty whenever
the segment is, so the JS ternary always prepends it. -/
def createChunksGo (doc : DocMeta) :
    List String → String → ℕ → ℕ → List PipelineChunk
  | [], cur, tok, idx =>
    if cur ≠ "" ∧ MIN_CHUNK_TOKENS ≤ tok then [mkChunk doc (jsTrimS cur) idx tok] else []
  | s :: rest, cur, tok, idx =>
    let sentenceTokens := estimateTokens s
    if TARGET_TOKENS < tok + sentenceTokens ∧ cur ≠ "" then
      let overlapText := getOverlapText cur OVERLAP_TOKENS
      let seeded := if overlapText ≠ "" then overlapText ++ " " ++ s else s
      mkChunk doc (jsTrimS cur) idx tok ::
        createChunksGo doc rest seeded (estimateTokens seeded) (idx + 1)
    else
      createChunksGo doc rest (if cur = "" then s else cur ++ " " ++ s)
        (tok + sentenceTokens) idx

/-- Source: `TextChunker.createChunks`. -/
def createChunks (doc : DocMeta) (sentences : List String) : List PipelineChunk :=
  createChunksGo doc sentences "" 0 0

/-- Claim-side description of the overlap tail: the last
`min n wordCount` whitespace-separated tokens of `cur`, joined by single
spaces. -/
def overlapTailSpec (cur : String) (n : ℕ) : String :=
  String.mk (joinSp ((wsSplit cur.data).drop
    ((wsSplit cur.data).length - min n (wsSplit cur.data).length)))

/-- Well-formedness of a loaded store: every stored vector has the
advertised dimension. -/
def storeDimsOk (store : VectorStore) : Prop :=
  ∀ e ∈ store.embeddings, e.length = store.embeddingDim

instance (store : VectorStore) : Decidable (storeDimsOk store) := by
  unfold storeDimsOk; infer_instance

/-- Demo fixture: chunk 0 of the end-to-end scenario index (document d1). -/
def demoChunkA : StoredChunk :=
  { chunk_id := "d1_chunk_0", document_id := "d1", text := "alpha",
    category := some "safety", language := some "uk", embedding := some [1, 0, 0] }

/-- Demo fixture: chunk 1 (document d2, absent from the demo catalog). -/
def demoChunkB : StoredChunk :=
  { chunk_id := "d2_chunk_0", document_id := "d2", text := "beta",
    category := some "safety", language := some "en", embedding := some [0, 1, 0] }

/-- Demo fixture: chunk 2 (document d1 again). -/
def demoChunkC : StoredChunk :=
  { chunk_id := "d1_chunk_1", document_id := "d1", text := "gamma",
    category := some "safety", language := some "uk", embedding := some [0, 0, 1] }

/-- Demo fixture: a loaded three-chunk store of dimension 3 (the spec's
end-to-end scenario index, dimensions truncated). -/
def demoStore3 : VectorStore :=
  { chunks := [demoChunkA, demoChunkB, demoChunkC],
    embeddings := [[1, 0, 0], [0, 1, 0], [0, 0, 1]],
    isLoaded := true, embeddingDim := 3 }

/-- Demo fixture: a chunk violating every load-time validation the spec
asks for: empty ids and text, and a vector shorter than `embedding_dim`. -/
def badChunk : StoredChunk :=
  { chunk_id := "", document_id := "", text := "", embedding := some [1] }

/-- Demo fixture: an embeddings artifact containing only `badChunk`. -/
def badData : EmbeddingsData :=
  { chunks := some [badChunk], embedding_dim := some 3 }

/-- Demo fixture: the catalog document behind `demoChunkA`/`demoChunkC`. -/
def demoDoc1 : Document :=
  { id := "d1", title := "Regulation One", filename := "reg1.pdf",
    source_url := "https://example.org/reg1.pdf", category := "safety",
    language := "uk" }

/-- Demo fixture: a catalog knowing document d1 only (d2 is unresolvable). -/
def demoDM : DocumentManager :=
  { documents := [demoDoc1],
    categories := [{ id := "safety", name_uk := "Безпека", name_en := "Safety" }] }

/-- Demo fixture: document metadata for the chunker. -/
def demoMeta : DocMeta :=
  { id := "d1", category := "safety", language := "uk", title := "Regulation One",
    filename := "reg1.pdf", source_url := "https://example.org/reg1.pdf" }

/-- Demo fixture: a 40-character sentence (12 estimated tokens). -/
def demoSentence : String := "abcdefghijklmnopqrstuvwxyz0123456789abcd"

/-! Helper lemmas. -/

theorem extractEmbeddings_isOk :
    ∀ (cs : List StoredChunk), (∀ c ∈ cs, c.embedding.isSome) →
      ∃ vs, extractEmbeddings cs = .ok vs
  | [], _ => ⟨[], rfl⟩
  | c :: cs, h => by
    obtain ⟨v, hv⟩ := Option.isSome_iff_exists.mp (h c (List.mem_cons_self _ _))
    obtain ⟨vs, hvs⟩ := extractEmbeddings_isOk cs (fun c hc => h c (List.mem_cons_of_mem _ hc))
    exact ⟨v :: vs, by simp [extractEmbeddings, hv, hvs]; rfl⟩

theorem scanCandidates_isOk (q : Vec) (f : Filters) :
    ∀ (pairs : List (StoredChunk × Vec)) (i : ℕ),
      (∀ p ∈ pairs, (p.2 : Vec).length = q.length) →
      ∃ cs, scanCandidates q f i pairs = .ok cs
  | [], _, _ => ⟨[], rfl⟩
  | (c, e) :: rest, i, h => by
    have he : e.length = q.length := h (c, e) (List.mem_cons_self _ _)
    obtain ⟨cs, hcs⟩ :=
      scanCandidates_isOk q f rest (i + 1) (fun p hp => h p (List.mem_cons_of_mem _ hp))
    by_cases hm : matchesFilters f c
    · refine ⟨⟨i, (List.zipWith (· * ·) q e).sum⟩ :: cs, ?_⟩
      simp [scanCandidates, hm, dotProduct, he, hcs]
      rfl
    · exact ⟨cs, by simp [scanCandidates, hm, hcs]⟩

/-- C9: for every input that is the empty string (or not a string at all),
`routeQuery` fails with a thrown error before any embedding or search is
attempted — the result is the same `.error` for every embedder and store,
so neither is consulted — and the error-to-general downgrade does not
apply. -/
theorem routeQuery_rejects_invalid_query
    (embedText : String → Except String Vec) (store : VectorStore)
    (router : RouterConfig) (forceMode : Option String) (topK : Int)
    (q : Option String) (hq : q = none ∨ q = some "") :
    routeQuery embedText store router q forceMode topK =
      .error "User query must be a non-empty string" := by
  rcases hq with h | h <;> subst h <;> simp [routeQuery]

theorem routeQuery_rejects_invalid_query_witness :
    routeQuery (fun _ => .ok [1, 0, 0]) demoStore3 defaultRouter (some "")
      (some "rag") 1 = .error "User query must be a non-empty string" :=
  routeQuery_rejects_invalid_query _ _ _ _ _ _ (Or.inr rfl)

/-- C3 counterexample: on a loaded store with a query of the correct
dimension, `search` with `topK = 0` resolves with an (empty) result list —
it does not fail with any error, contradicting the claimed
`InvalidArgument` failure. -/
theorem search_topK_zero_counterexample :
    search demoStore3 [1, 0, 0] 0 noFilters = .ok [] := by decide

/-- C3 amended: `search` performs no validation of `topK`: for every
loaded, dimension-consistent store and every non-positive `topK` it
resolves with a result list (via the slice semantics), and `topK = 0`
yields the empty list. -/
theorem search_nonpositive_topK (store : VectorStore) (q : Vec) (f : Filters)
    (k : Int) (hl : store.isLoaded = true) (hq : q.length = store.embeddingDim)
    (hdims : ∀ e ∈ store.embeddings, e.length = q.length) (hk : k ≤ 0) :
    ∃ res, search store q k f = .ok res ∧ (k = 0 → res = []) := by
  have hzip : ∀ p ∈ store.chunks.zip store.embeddings, (p.2 : Vec).length = q.length := by
    intro p hp
    exact hdims p.2 (List.of_mem_zip hp).2
  obtain ⟨cs, hcs⟩ := scanCandidates_isOk q f _ 0 hzip
  refine ⟨(jsSlice (List.insertionSort candR cs) k).map (renderResult store.chunks), ?_, ?_⟩
  · simp [search, hl, hq, hcs]
    rfl
  · intro hk0
    subst hk0
    simp [jsSlice]

theorem search_nonpositive_topK_witness :
    ∃ res, search demoStore3 [1, 0, 0] 0 noFilters = .ok res ∧ ((0 : Int) = 0 → res = []) :=
  search_nonpositive_topK demoStore3 [1, 0, 0] noFilters 0 rfl (by decide)
    (by decide) (by decide)

/-- C2 counterexample: `loadEmbeddings` succeeds on an artifact whose only
chunk has a vector of length 1 against `embedding_dim = 3` and empty
`chunk_id`, `document_id` and `text` — no `IndexCorrupt`-style failure
occurs on these violations. -/
theorem loadEmbeddings_no_validation_counterexample :
    loadEmbeddings initialVectorStore (some badData) =
      .ok { chunks := [badChunk], embeddings := [[1]], isLoaded := true,
            embeddingDim := 3 } := by decide

/-- C2 amended: `loadEmbeddings` validates only that the artifact and its
`chunks` array are present and that every chunk's `embedding` is an array;
whenever that holds it loads successfully, with no check of the vector
lengths against `embedding_dim` and no check that `chunk_id`,
`document_id` or `text` are non-empty. -/
theorem loadEmbeddings_accepts_unvalidated (st : VectorStore)
    (d : EmbeddingsData) (cs : List StoredChunk) (hc : d.chunks = some cs)
    (he : ∀ c ∈ cs, c.embedding.isSome) :
    ∃ out, loadEmbeddings st (some d) = .ok out ∧ out.isLoaded = true ∧
      out.chunks = cs := by
  obtain ⟨vs, hvs⟩ := extractEmbeddings_isOk cs he
  refine ⟨{ chunks := cs, embeddings := vs, isLoaded := true,
            embeddingDim := match d.embedding_dim with
              | some n => if n = 0 then 768 else n
              | none => 768 }, ?_, rfl, rfl⟩
  simp [loadEmbeddings, hc, hvs]
  rfl

theorem loadEmbeddings_accepts_unvalidated_witness :
    ∃ out, loadEmbeddings initialVectorStore (some badData) = .ok out ∧
      out.isLoaded = true ∧ out.chunks = [badChunk] :=
  loadEmbeddings_accepts_unvalidated initialVectorStore badData [badChunk] rfl
    (by decide)

theorem wsSplit_no_ws : ∀ (l : List Char), ∀ w ∈ wsSplit l, ∀ x ∈ w, ¬ x.isWhitespace := by
  intro l
  induction l with
  | nil =>
    intro w hw x hx
    simp [wsSplit] at hw
    subst hw
    simp at hx
  | cons c cs ih =>
    intro w hw x hx
    by_cases hc : c.isWhitespace
    · cases cs with
      | nil =>
        simp [wsSplit, hc] at hw
        subst hw
        simp at hx
      | cons d ds =>
        by_cases hd : d.isWhitespace
        · rw [show wsSplit (c :: d :: ds) = wsSplit (d :: ds) from by
            simp [wsSplit, hc, hd]] at hw
          exact ih w hw x hx
        · rw [show wsSplit (c :: d :: ds) = [] :: wsSplit (d :: ds) from by
            simp [wsSplit, hc, hd]] at hw
          rcases List.mem_cons.mp hw with h | h
          · subst h; simp at hx
          · exact ih w h x hx
    · rcases hsplit : wsSplit cs with _ | ⟨t, ts⟩
      · rw [show wsSplit (c :: cs) = [[c]] from by simp [wsSplit, hc, hsplit]] at hw
        simp at hw
        subst hw
        simp at hx
        subst hx
        exact hc
      · rw [show wsSplit (c :: cs) = (c :: t) :: ts from by simp [wsSplit, hc, hsplit]] at hw
        rcases List.mem_cons.mp hw with h | h
        · subst h
          rcases List.mem_cons.mp hx with h | h
          · subst h; exact hc
          · exact ih t (by rw [hsplit]; exact List.mem_cons_self _ _) x h
        · exact ih w (by rw [hsplit]; exact List.mem_cons_of_mem _ h) x hx

theorem mem_joinSp : ∀ (ws : List (List Char)) (x : Char), x ∈ joinSp ws →
    x = ' ' ∨ ∃ w ∈ ws, x ∈ w
  | [], x => by simp [joinSp]
  | [w], x => by
    intro h
    right
    exact ⟨w, List.mem_singleton_self _, by simpa [joinSp] using h⟩
  | w :: v :: ws, x => by
    intro h
    rw [show joinSp (w :: v :: ws) = w ++ ' ' :: joinSp (v :: ws) from rfl] at h
    rcases List.mem_append.mp h with h | h
    · right; exact ⟨w, List.mem_cons_self _ _, h⟩
    · rcases List.mem_cons.mp h with h | h
      · left; exact h
      · rcases mem_joinSp (v :: ws) x h with h | ⟨u, hu, hx⟩
        · left; exact h
        · right; exact ⟨u, List.mem_cons_of_mem _ hu, hx⟩

theorem collapseNlAux_of_no_nl : ∀ (l : List Char), '\n' ∉ l → collapseNlAux l 0 = l
  | [] => by intro _; simp [collapseNlAux, emitRun]
  | c :: cs => by
    intro h
    have hc : ¬ c = '\n' := by
      intro e; exact h (by simp [e])
    have hcs : '\n' ∉ cs := fun hx => h (List.mem_cons_of_mem _ hx)
    simp [collapseNlAux, hc, emitRun, collapseNlAux_of_no_nl cs hcs]

theorem mem_jsTrim {x : Char} {l : List Char} (h : x ∈ jsTrim l) : x ∈ l := by
  unfold jsTrim at h
  have h1 := List.mem_reverse.mp h
  have h2 := (List.dropWhile_sublist _).subset h1
  have h3 := List.mem_reverse.mp h2
  exact (List.dropWhile_sublist _).subset h3

/-- C4 counterexample: the extractor normalization does not produce
`"A\n\nB"` on the quoted input — the whitespace-collapse step has already
replaced every newline by a space. -/
theorem cleanText_example_counterexample :
    cleanText "A  \n\n\n\nB" ≠ "A\n\nB" := by decide

/-- C4 amended: the normalization collapses whitespace runs (newlines
included) to single spaces first, making the newline-collapsing step
vacuous: the quoted input normalizes to `"A B"`, and no normalized output
contains a newline at all. -/
theorem cleanText_collapses_all_newlines :
    cleanText "A  \n\n\n\nB" = "A B" ∧ ∀ s : String, '\n' ∉ (cleanText s).data := by
  constructor
  · decide
  · intro s hmem
    have h0 : '\n' ∉ collapseWs s.data := by
      intro hx
      rcases mem_joinSp _ _ hx with h | ⟨w, hw, hxw⟩
      · exact absurd h (by decide)
      · exact wsSplit_no_ws _ w hw _ hxw (by decide)
    have h1 : collapseNlAux (collapseWs s.data) 0 = collapseWs s.data :=
      collapseNlAux_of_no_nl _ h0
    have hmem2 : '\n' ∈ jsTrim (collapseNlAux (collapseWs s.data) 0) := hmem
    rw [h1] at hmem2
    exact h0 (mem_jsTrim hmem2)

/-- C6: with the default thresholds, whenever no mode is forced and the
embedding and top-1 search succeed with at least one hit of top score `s`:
if `2/5 ≤ s < 3/5` the router returns mode `general` with confidence
`1 - s` and the retrieved chunks attached, and if `3/5 ≤ s` it returns
mode `rag` with confidence `s`. -/
theorem routeQuery_threshold_bands
    (embedText : String → Except String Vec) (store : VectorStore) (q : String)
    (emb : Vec) (top : SearchResult) (rest : List SearchResult)
    (hq : q ≠ "") (hemb : embedText q = .ok emb)
    (hsearch : search store emb 1 noFilters = .ok (top :: rest)) :
    (2/5 ≤ top.similarity_score → top.similarity_score < 3/5 →
      routeQuery embedText store defaultRouter (some q) none 1 =
        .ok { mode := "general", confidence := 1 - top.similarity_score,
              reason := .lowSim, relevantChunks := top :: rest }) ∧
    (3/5 ≤ top.similarity_score →
      routeQuery embedText store defaultRouter (some q) none 1 =
        .ok { mode := "rag", confidence := top.similarity_score,
              reason := .highSim, relevantChunks := top :: rest }) := by
  have hstep : (do
      let e ← embedText q
      search store e 1 noFilters : Except String (List SearchResult)) =
        .ok (top :: rest) := by
    rw [hemb]
    exact hsearch
  constructor
  · intro h1 h2
    have hns : ¬ ((3 : ℚ)/5 ≤ top.similarity_score) := not_le.mpr h2
    simp [routeQuery, hq, hstep, defaultRouter, hns, h1]
  · intro h1
    simp [routeQuery, hq, hstep, defaultRouter, h1]

theorem routeQuery_threshold_bands_witness :
    routeQuery (fun _ => .ok [11/20, 0, 0]) demoStore3 defaultRouter (some "q") none 1 =
      .ok { mode := "general", confidence := 9/20, reason := .lowSim,
            relevantChunks := [⟨demoChunkA, 11/20⟩] } := by
  have h := (routeQuery_threshold_bands (fun _ => .ok [11/20, 0, 0]) demoStore3 "q"
    [11/20, 0, 0] ⟨demoChunkA, 11/20⟩ [] (by decide) rfl (by decide)).1
    (by decide) (by decide)
  rw [h]
  decide

/-- C1: whenever the query embedding succeeds, retrieval returns at least
one chunk, and the generator call succeeds, `RAGPipeline.query` returns
mode `rag` with the cleaned answer, the retrieved chunks projected with
their similarity scores, the deduplicated sources, and metadata holding
the timing breakdown, the retrieved count and the (rounded) average
similarity. -/
theorem ragQuery_success
    (embed : String → Except String Vec) (store : VectorStore)
    (dm : DocumentManager) (gen : String → GenConfig → Except String String)
    (clock : ℕ → ℚ) (userQuery : String) (topK : Int) (filters : Filters)
    (cfg : GenConfig) (qemb : Vec) (retrieved : List SearchResult)
    (generatedAnswer : String)
    (hemb : embed userQuery = .ok qemb)
    (hsearch : search store qemb topK filters = .ok retrieved)
    (hne : retrieved ≠ [])
    (hgen : gen (buildRAGPrompt userQuery (buildContext retrieved)) cfg =
      .ok generatedAnswer) :
    ragQuery embed store dm gen clock userQuery topK filters cfg =
      { mode := "rag",
        answer := extractResponse generatedAnswer,
        retrievedChunks := retrieved.map projectChunk,
        sources := extractSources dm retrieved,
        metadata := some
          { queryTime := (clock 1 - clock 0) + (clock 3 - clock 2) + (clock 5 - clock 4),
            embeddingTime := some (clock 1 - clock 0),
            retrievalTime := some (clock 3 - clock 2),
            generationTime := some (clock 5 - clock 4),
            retrievedCount := retrieved.length,
            sourceCount := some (extractSources dm retrieved).length,
            avgSimilarity := some (calculateAvgSimilarity retrieved) },
        error := none } := by
  simp [ragQuery, hemb, hsearch, hne, hgen]

theorem ragQuery_success_witness :
    ragQuery (fun _ => .ok [1, 0, 0]) demoStore3 demoDM
      (fun _ _ => .ok " Assistant: Done here.\nUser: next")
      (fun n => (n : ℚ)) "What?" 2 noFilters {} =
    { mode := "rag",
      answer := "Done here.",
      retrievedChunks :=
        [projectChunk ⟨demoChunkA, 1⟩, projectChunk ⟨demoChunkB, 0⟩],
      sources := [mkSource demoDM demoDoc1 (some "uk")],
      metadata := some
        { queryTime := 3, embeddingTime := some 1, retrievalTime := some 1,
          generationTime := some 1, retrievedCount := 2, sourceCount := some 1,
          avgSimilarity := some (1/2) },
      error := none } := by
  rw [ragQuery_success (fun _ => .ok [1, 0, 0]) demoStore3 demoDM
    (fun _ _ => .ok " Assistant: Done here.\nUser: next") (fun n => (n : ℚ))
    "What?" 2 noFilters {} [1, 0, 0] [⟨demoChunkA, 1⟩, ⟨demoChunkB, 0⟩]
    " Assistant: Done here.\nUser: next" rfl (by decide) (by decide) rfl]
  decide

theorem extractSourcesAux_eq (dm : DocumentManager) :
    ∀ (chunks : List SearchResult) (seen : List String),
      extractSourcesAux dm chunks seen =
        (dedupByDocId chunks seen).filterMap
          (fun c => (getDocumentById dm c.chunk.document_id).map
            (fun doc => mkSource dm doc c.chunk.language))
  | [], seen => rfl
  | c :: cs, seen => by
    by_cases hmem : c.chunk.document_id ∈ seen
    · simp [extractSourcesAux, dedupByDocId, hmem, extractSourcesAux_eq dm cs seen]
    · rcases hdoc : getDocumentById dm c.chunk.document_id with _ | doc
      · simp [extractSourcesAux, dedupByDocId, hmem, hdoc, List.filterMap_cons,
          extractSourcesAux_eq dm cs (c.chunk.document_id :: seen)]
      · simp [extractSourcesAux, dedupByDocId, hmem, hdoc, List.filterMap_cons,
          extractSourcesAux_eq dm cs (c.chunk.document_id :: seen)]

theorem dedupByDocId_nodup :
    ∀ (chunks : List SearchResult) (seen : List String),
      ((dedupByDocId chunks seen).map (fun c => c.chunk.document_id)).Nodup ∧
      ∀ c ∈ dedupByDocId chunks seen, c.chunk.document_id ∉ seen
  | [], seen => ⟨List.nodup_nil, by simp [dedupByDocId]⟩
  | c :: cs, seen => by
    by_cases hmem : c.chunk.document_id ∈ seen
    · simpa [dedupByDocId, hmem] using dedupByDocId_nodup cs seen
    · obtain ⟨hnd, hnin⟩ := dedupByDocId_nodup cs (c.chunk.document_id :: seen)
      constructor
      · simp only [dedupByDocId, hmem, if_false, List.map_cons, List.nodup_cons]
        refine ⟨?_, hnd⟩
        intro hin
        obtain ⟨x, hx, hxid⟩ := List.mem_map.mp hin
        exact (hnin x hx) (by rw [hxid]; exact List.mem_cons_self _ _)
      · intro x hx
        rw [show dedupByDocId (c :: cs) seen =
          c :: dedupByDocId cs (c.chunk.document_id :: seen) from by
            simp [dedupByDocId, hmem]] at hx
        rcases List.mem_cons.mp hx with h | h
        · subst h; exact hmem
        · exact fun hs => (hnin x h) (List.mem_cons_of_mem _ hs)

theorem getDocumentById_id {dm : DocumentManager} {id : String} {doc : Document}
    (h : getDocumentById dm id = some doc) : doc.id = id := by
  have := List.find?_some h
  simpa using this

theorem sources_ids_sublist (dm : DocumentManager) :
    ∀ (l : List SearchResult),
      ((l.filterMap (fun c => (getDocumentById dm c.chunk.document_id).map
          (fun doc => mkSource dm doc c.chunk.language))).map
        Source.document_id).Sublist (l.map (fun c => c.chunk.document_id))
  | [] => by simp
  | c :: cs => by
    rcases hdoc : getDocumentById dm c.chunk.document_id with _ | doc
    · simp only [List.filterMap_cons, hdoc, List.map_cons]
      exact (sources_ids_sublist dm cs).cons _
    · simp only [List.filterMap_cons, hdoc, List.map_cons, Option.map_some']
      rw [show (mkSource dm doc c.chunk.language).document_id = c.chunk.document_id from
        getDocumentById_id hdoc]
      exact (sources_ids_sublist dm cs).cons₂ _

/-- C10: `extractSources` yields exactly one entry per distinct
`document_id` that resolves in the catalog, in order of first occurrence
(it equals the catalog-resolution filter over the first-occurrence
representatives); the resulting ids are duplicate-free, and unresolvable
ids contribute nothing, so the list can be shorter than the number of
distinct retrieved ids.  The function is total: no input raises an
error. -/
theorem extractSources_dedup_resolved (dm : DocumentManager)
    (chunks : List SearchResult) :
    extractSources dm chunks =
      (firstOccurrences chunks).filterMap
        (fun c => (getDocumentById dm c.chunk.document_id).map
          (fun doc => mkSource dm doc c.chunk.language)) ∧
    ((extractSources dm chunks).map Source.document_id).Nodup ∧
    (extractSources dm chunks).length ≤ (firstOccurrences chunks).length := by
  have h2 : extractSources dm chunks =
      (firstOccurrences chunks).filterMap
        (fun c => (getDocumentById dm c.chunk.document_id).map
          (fun doc => mkSource dm doc c.chunk.language)) :=
    extractSourcesAux_eq dm chunks []
  refine ⟨h2, ?_, ?_⟩
  · rw [h2]
    exact List.Nodup.sublist (sources_ids_sublist dm (firstOccurrences chunks))
      (dedupByDocId_nodup chunks []).1
  · rw [h2]
    exact List.length_filterMap_le _ _

theorem histLoop_suffix (tc : String → ℕ) (maxTokens : ℕ) :
    ∀ (l : List String), l ≠ [] →
      ∃ k, k < l.length ∧ histLoop tc maxTokens l = l.drop k ∧
        (tc (String.intercalate "\n" (l.drop k)) ≤ maxTokens ∨ k = l.length - 1)
  | [], h => absurd rfl h
  | [m], _ => ⟨0, by simp, by simp [histLoop], Or.inr rfl⟩
  | m :: m2 :: rest, _ => by
    by_cases hc : maxTokens < tc (String.intercalate "\n" (m :: m2 :: rest))
    · obtain ⟨k, hk, heq, hd⟩ := histLoop_suffix tc maxTokens (m2 :: rest) (by simp)
      refine ⟨k + 1, by simpa using Nat.succ_lt_succ hk, ?_, ?_⟩
      · rw [show histLoop tc maxTokens (m :: m2 :: rest) =
          histLoop tc maxTokens (m2 :: rest) from by simp [histLoop, hc]]
        simpa using heq
      · rcases hd with hd | hd
        · left; simpa using hd
        · right
          simp only [List.length_cons] at hd ⊢
          omega
    · exact ⟨0, by simp, by simp [histLoop, hc],
        Or.inl (by simpa using Nat.not_lt.mp hc)⟩

/-- C8: for any non-empty message list and any token counter, the
formatted history the prompt builder feeds into the prompt is a suffix of
the full formatted message list obtained by dropping messages from the
front (so it always retains the most recent message), and either its
counted tokens fit the budget `512 − 100` or it is exactly the single most
recent message; `buildPrompt` assembles the prompt from that history. -/
theorem buildPrompt_history_truncation (tc : String → ℕ) (msgs : List Msg)
    (newMessage : String) (h : msgs ≠ []) :
    ∃ k, k < msgs.length ∧
      formatConversationHistory tc (512 - 100) msgs =
        String.intercalate "\n" ((msgs.map fmtMsg).drop k) ∧
      (tc (formatConversationHistory tc (512 - 100) msgs) ≤ 512 - 100 ∨
        k = msgs.length - 1) ∧
      buildPrompt 512 msgs newMessage tc =
        createPrompt (formatConversationHistory tc (512 - 100) msgs) newMessage := by
  obtain ⟨k, hk, heq, hd⟩ :=
    histLoop_suffix tc (512 - 100) (msgs.map fmtMsg) (by simpa using h)
  have hfmt : formatConversationHistory tc (512 - 100) msgs =
      String.intercalate "\n" ((msgs.map fmtMsg).drop k) := by
    simp only [formatConversationHistory]
    rw [if_neg h, heq]
  refine ⟨k, by simpa using hk, hfmt, ?_, rfl⟩
  rcases hd with hd | hd
  · left; rw [hfmt]; exact hd
  · right; simpa using hd

theorem buildPrompt_history_truncation_witness :
    ∃ k, k < ([⟨"user", "hi"⟩, ⟨"assistant", "ok"⟩] : List Msg).length ∧
      formatConversationHistory (fun s => s.length) (512 - 100)
          [⟨"user", "hi"⟩, ⟨"assistant", "ok"⟩] =
        String.intercalate "\n"
          ((([⟨"user", "hi"⟩, ⟨"assistant", "ok"⟩] : List Msg).map fmtMsg).drop k) ∧
      ((fun s => s.length : String → ℕ)
          (formatConversationHistory (fun s => s.length) (512 - 100)
            [⟨"user", "hi"⟩, ⟨"assistant", "ok"⟩]) ≤ 512 - 100 ∨
        k = ([⟨"user", "hi"⟩, ⟨"assistant", "ok"⟩] : List Msg).length - 1) ∧
      buildPrompt 512 [⟨"user", "hi"⟩, ⟨"assistant", "ok"⟩] "next" (fun s => s.length) =
        createPrompt
          (formatConversationHistory (fun s => s.length) (512 - 100)
            [⟨"user", "hi"⟩, ⟨"assistant", "ok"⟩]) "next" :=
  buildPrompt_history_truncation (fun s => s.length)
    [⟨"user", "hi"⟩, ⟨"assistant", "ok"⟩] "next" (by decide)

theorem wsSplit_ne_nil : ∀ (l : List Char), wsSplit l ≠ []
  | [] => by simp [wsSplit]
  | c :: cs => by
    by_cases hc : c.isWhitespace
    · cases cs with
      | nil => simp [wsSplit, hc]
      | cons d ds =>
        by_cases hd : d.isWhitespace
        · rw [show wsSplit (c :: d :: ds) = wsSplit (d :: ds) from by
            simp [wsSplit, hc, hd]]
          exact wsSplit_ne_nil (d :: ds)
        · simp [wsSplit, hc, hd]
    · rcases hsplit : wsSplit cs with _ | ⟨t, ts⟩
      · simp [wsSplit, hc, hsplit]
      · simp [wsSplit, hc, hsplit]

theorem wsSplit_eq_single_empty : ∀ (l : List Char), wsSplit l = [[]] → l = []
  | [] => fun _ => rfl
  | c :: cs => by
    intro h
    by_cases hc : c.isWhitespace
    · cases cs with
      | nil => simp [wsSplit, hc] at h
      | cons d ds =>
        by_cases hd : d.isWhitespace
        · rw [show wsSplit (c :: d :: ds) = wsSplit (d :: ds) from by
            simp [wsSplit, hc, hd]] at h
          exact absurd (wsSplit_eq_single_empty (d :: ds) h) (by simp)
        · rw [show wsSplit (c :: d :: ds) = [] :: wsSplit (d :: ds) from by
            simp [wsSplit, hc, hd]] at h
          have := List.cons.injEq .. ▸ h
          simp at h
          exact absurd h (wsSplit_ne_nil (d :: ds))
    · rcases hsplit : wsSplit cs with _ | ⟨t, ts⟩
      · simp [wsSplit, hc, hsplit] at h
      · rw [show wsSplit (c :: cs) = (c :: t) :: ts from by
          simp [wsSplit, hc, hsplit]] at h
        simp at h

theorem joinSp_cons_cons (a b : List Char) (l : List (List Char)) :
    joinSp (a :: b :: l) = a ++ ' ' :: joinSp (b :: l) := rfl

theorem mk_ne_empty {l : List Char} (h : l ≠ []) : String.mk l ≠ "" := by
  intro he
  apply h
  have hd : (String.mk l).data = ("" : String).data := by rw [he]
  simpa using hd

theorem joinSp_of_len_ge_two : ∀ {ws : List (List Char)}, 2 ≤ ws.length → joinSp ws ≠ []
  | [], h => by simp at h
  | [a], h => by simp at h
  | a :: b :: l, _ => by
    rw [joinSp_cons_cons]
    simp

theorem getOverlapText_ne_empty (cur : String) (n : ℕ) (hc : cur ≠ "")
    (hn : 2 ≤ n) : getOverlapText cur n ≠ "" := by
  rcases hsplit : wsSplit cur.data with _ | ⟨w, ws⟩
  · exact absurd hsplit (wsSplit_ne_nil _)
  · cases ws with
    | nil =>
      have hw : w ≠ [] := by
        intro hwe
        apply hc
        have h0 := wsSplit_eq_single_empty cur.data (by rw [hsplit, hwe])
        cases cur
        simp_all
      have hgoal : getOverlapText cur n = String.mk w := by
        simp only [getOverlapText, hsplit]
        have hmin : min n ([w] : List (List Char)).length = 1 := by
          simp
          omega
        rw [hmin]
        norm_num [joinSp]
      rw [hgoal]
      exact mk_ne_empty hw
    | cons v vs =>
      have h2len : 2 ≤ (w :: v :: vs).length := by simp
      have h2m : 2 ≤ min n (w :: v :: vs).length := le_min hn h2len
      have hminpos : min n (w :: v :: vs).length ≠ 0 := by omega
      simp only [getOverlapText, hsplit]
      rw [if_neg hminpos]
      apply mk_ne_empty
      apply joinSp_of_len_ge_two
      rw [List.length_drop]
      have h1 : min n (w :: v :: vs).length ≤ (w :: v :: vs).length :=
        min_le_right _ _
      omega

/-- C7: whenever appending the next sentence to a non-empty current
segment would push the running token count past `TARGET_TOKENS`, the
chunker emits the current segment (with its running count) and starts the
next segment with the last `min(OVERLAP_TOKENS, word count)`
space-separated tokens of the emitted segment joined by single spaces,
followed by the incoming sentence, recomputing the running count by
applying the estimator to that seeded content. -/
theorem createChunks_overlap_step (doc : DocMeta) (s : String)
    (rest : List String) (cur : String) (tok idx : ℕ) (hcur : cur ≠ "")
    (hover : TARGET_TOKENS < tok + estimateTokens s) :
    createChunksGo doc (s :: rest) cur tok idx =
      mkChunk doc (jsTrimS cur) idx tok ::
        createChunksGo doc rest (overlapTailSpec cur OVERLAP_TOKENS ++ " " ++ s)
          (estimateTokens (overlapTailSpec cur OVERLAP_TOKENS ++ " " ++ s))
          (idx + 1) := by
  have hne := wsSplit_ne_nil cur.data
  have hlen : 0 < (wsSplit cur.data).length := List.length_pos.mpr hne
  have hov_eq : getOverlapText cur OVERLAP_TOKENS = overlapTailSpec cur OVERLAP_TOKENS := by
    have hmin : min OVERLAP_TOKENS (wsSplit cur.data).length ≠ 0 := by
      simp only [OVERLAP_TOKENS]
      omega
    simp only [getOverlapText, overlapTailSpec]
    rw [if_neg hmin]
  have hov_ne : getOverlapText cur OVERLAP_TOKENS ≠ "" :=
    getOverlapText_ne_empty cur OVERLAP_TOKENS hcur (by simp [OVERLAP_TOKENS])
  simp only [createChunksGo]
  rw [if_pos (And.intro hover hcur), if_pos hov_ne, hov_eq]

theorem createChunks_overlap_step_witness :
    createChunksGo demoMeta [demoSentence] "alpha beta gamma" 245 0 =
      mkChunk demoMeta (jsTrimS "alpha beta gamma") 0 245 ::
        createChunksGo demoMeta []
          (overlapTailSpec "alpha beta gamma" OVERLAP_TOKENS ++ " " ++ demoSentence)
          (estimateTokens
            (overlapTailSpec "alpha beta gamma" OVERLAP_TOKENS ++ " " ++ demoSentence))
          1 :=
  createChunks_overlap_step demoMeta demoSentence [] "alpha beta gamma" 245 0
    (by decide) (by decide)

/-- C5: for every loaded, dimension-consistent store, query of the correct
dimension and `topK ≥ 1`, `search` succeeds and returns the first `topK`
entries of the unique `candR`-sorted permutation of the scanned
candidates: the result is sorted by `candR` (score strictly decreasing,
score ties resolved in favour of the earlier store index), every selected
candidate beats every non-selected one under `candR` (so an
equal-scoring earlier-stored chunk is selected over a later one), the
result length is `min topK #candidates`, the rendered scores are
non-increasing, and any sorted permutation of the candidates equals the
one used — the output is a deterministic function of the index and
query. -/
theorem search_topK_ranking (store : VectorStore) (q : Vec) (f : Filters)
    (topK : Int) (hl : store.isLoaded = true) (hq : q.length = store.embeddingDim)
    (hdims : ∀ e ∈ store.embeddings, e.length = q.length) (hk : 1 ≤ topK) :
    ∃ cands,
      scanCandidates q f 0 (store.chunks.zip store.embeddings) = .ok cands ∧
      search store q topK f =
        .ok (((List.insertionSort candR cands).take topK.toNat).map
          (renderResult store.chunks)) ∧
      (List.insertionSort candR cands).Sorted candR ∧
      (List.insertionSort candR cands).Perm cands ∧
      (∀ x ∈ (List.insertionSort candR cands).take topK.toNat,
        ∀ y ∈ (List.insertionSort candR cands).drop topK.toNat, candR x y) ∧
      (((List.insertionSort candR cands).take topK.toNat).map
        (renderResult store.chunks)).length = min topK.toNat cands.length ∧
      (((List.insertionSort candR cands).take topK.toNat).map
        (renderResult store.chunks)).Pairwise
          (fun a b => b.similarity_score ≤ a.similarity_score) ∧
      (∀ l, l.Perm cands → l.Sorted candR → l = List.insertionSort candR cands) := by
  have hzip : ∀ p ∈ store.chunks.zip store.embeddings, (p.2 : Vec).length = q.length :=
    fun p hp => hdims p.2 (List.of_mem_zip hp).2
  obtain ⟨cands, hcands⟩ := scanCandidates_isOk q f _ 0 hzip
  have hsorted : (List.insertionSort candR cands).Sorted candR :=
    List.sorted_insertionSort candR cands
  have hperm : (List.insertionSort candR cands).Perm cands :=
    List.perm_insertionSort candR cands
  have hk0 : (0 : Int) ≤ topK := le_trans zero_le_one hk
  have hslice : jsSlice (List.insertionSort candR cands) topK =
      (List.insertionSort candR cands).take topK.toNat := by
    simp [jsSlice, hk0]
  refine ⟨cands, hcands, ?_, hsorted, hperm, ?_, ?_, ?_, ?_⟩
  · have hrun : search store q topK f =
        .ok ((jsSlice (List.insertionSort candR cands) topK).map
          (renderResult store.chunks)) := by
      simp [search, hl, hq, hcands]
      rfl
    rw [hrun, hslice]
  · intro x hx y hy
    have hsplit : List.insertionSort candR cands =
        (List.insertionSort candR cands).take topK.toNat ++
        (List.insertionSort candR cands).drop topK.toNat :=
      (List.take_append_drop _ _).symm
    have hp : ((List.insertionSort candR cands).take topK.toNat ++
        (List.insertionSort candR cands).drop topK.toNat).Pairwise candR := by
      rw [← hsplit]
      exact hsorted
    exact (List.pairwise_append.mp hp).2.2 x hx y hy
  · rw [List.length_map, List.length_take, hperm.length_eq]
  · have h1 : ((List.insertionSort candR cands).take topK.toNat).Pairwise candR :=
      List.Pairwise.sublist (List.take_sublist _ _) hsorted
    rw [List.pairwise_map]
    apply List.Pairwise.imp ?_ h1
    intro a b hab
    show (renderResult store.chunks b).similarity_score ≤
      (renderResult store.chunks a).similarity_score
    rcases hab with h | ⟨h, _⟩
    · exact le_of_lt h
    · exact le_of_eq h.symm
  · intro l hlperm hlsorted
    exact List.eq_of_perm_of_sorted (hlperm.trans hperm.symm) hlsorted hsorted

theorem search_topK_ranking_witness :
    ∃ cands,
      scanCandidates [1, 0, 0] noFilters 0
          (demoStore3.chunks.zip demoStore3.embeddings) = .ok cands ∧
      search demoStore3 [1, 0, 0] 2 noFilters =
        .ok (((List.insertionSort candR cands).take (2 : Int).toNat).map
          (renderResult demoStore3.chunks)) ∧
      (List.insertionSort candR cands).Sorted candR ∧
      (List.insertionSort candR cands).Perm cands ∧
      (∀ x ∈ (List.insertionSort candR cands).take (2 : Int).toNat,
        ∀ y ∈ (List.insertionSort candR cands).drop (2 : Int).toNat, candR x y) ∧
      (((List.insertionSort candR cands).take (2 : Int).toNat).map
        (renderResult demoStore3.chunks)).length = min (2 : Int).toNat cands.length ∧
      (((List.insertionSort candR cands).take (2 : Int).toNat).map
        (renderResult demoStore3.chunks)).Pairwise
          (fun a b => b.similarity_score ≤ a.similarity_score) ∧
      (∀ l, l.Perm cands → l.Sorted candR → l = List.insertionSort candR cands) :=
  search_topK_ranking demoStore3 [1, 0, 0] noFilters 2 rfl (by decide) (by decide)
    (by decide)
